import Mathlib

/-!
Shallow embedding of the CopilotKit Google Generative AI adapter
(`packages/backend/src/lib/google-genai-adapter.ts`): the message and tool
transcoders, the pre-stream part of `getResponse`, and the streaming bridge
that re-emits model output as chat-completion chunks.  JavaScript values that
cross the transcoding boundary (JSON payloads) are modelled by an inductive
`Json` type; the host primitives `JSON.parse`, `JSON.stringify`,
`String.prototype.replace` and string trimming are given executable models.
-/

/-- JSON values as handled by the adapter.  Numbers are modelled as integers:
no claim depends on fractional numerics. -/
inductive Json where
  | null : Json
  | bool (b : Bool) : Json
  | num (n : Int) : Json
  | str (s : String) : Json
  | arr (xs : List Json) : Json
  | obj (fields : List (String × Json)) : Json
deriving Repr

/-- Decidable equality for `Json` (the automatic derivation does not handle
the nested lists). -/
def Json.beqFn : Json → Json → Bool
  | .null, .null => true
  | .bool a, .bool b => a == b
  | .num a, .num b => a == b
  | .str a, .str b => a == b
  | .arr xs, .arr ys => beqList xs ys
  | .obj fs, .obj gs => beqFields fs gs
  | _, _ => false
where
  beqList : List Json → List Json → Bool
    | [], [] => true
    | x :: xs, y :: ys => Json.beqFn x y && beqList xs ys
    | _, _ => false
  beqFields : List (String × Json) → List (String × Json) → Bool
    | [], [] => true
    | (k, v) :: fs, (l, w) :: gs => k == l && Json.beqFn v w && beqFields fs gs
    | _, _ => false

mutual
theorem Json.beqFn_eq : ∀ a b : Json, Json.beqFn a b = true → a = b
  | .null, .null, _ => rfl
  | .bool _, .bool _, h => by
    simp only [Json.beqFn, beq_iff_eq] at h; rw [h]
  | .num _, .num _, h => by
    simp only [Json.beqFn, beq_iff_eq] at h; rw [h]
  | .str _, .str _, h => by
    simp only [Json.beqFn, beq_iff_eq] at h; rw [h]
  | .arr xs, .arr ys, h => by
    simp only [Json.beqFn] at h
    rw [Json.beqList_eq xs ys h]
  | .obj fs, .obj gs, h => by
    simp only [Json.beqFn] at h
    rw [Json.beqFields_eq fs gs h]

theorem Json.beqList_eq : ∀ xs ys : List Json, Json.beqFn.beqList xs ys = true → xs = ys
  | [], [], _ => rfl
  | x :: xs, y :: ys, h => by
    simp only [Json.beqFn.beqList, Bool.and_eq_true] at h
    rw [Json.beqFn_eq x y h.1, Json.beqList_eq xs ys h.2]

theorem Json.beqFields_eq :
    ∀ fs gs : List (String × Json), Json.beqFn.beqFields fs gs = true → fs = gs
  | [], [], _ => rfl
  | (k, v) :: fs, (l, w) :: gs, h => by
    simp only [Json.beqFn.beqFields, Bool.and_eq_true] at h
    rw [Json.beqFn_eq v w h.1.2, Json.beqFields_eq fs gs h.2]
    rw [show k = l from by have := h.1.1; simpa using this]
end

mutual
theorem Json.beqFn_rfl : ∀ a : Json, Json.beqFn a a = true
  | .null => rfl
  | .bool b => by simp [Json.beqFn]
  | .num n => by simp [Json.beqFn]
  | .str s => by simp [Json.beqFn]
  | .arr xs => by simp only [Json.beqFn]; exact Json.beqList_rfl xs
  | .obj fs => by simp only [Json.beqFn]; exact Json.beqFields_rfl fs

theorem Json.beqList_rfl : ∀ xs : List Json, Json.beqFn.beqList xs xs = true
  | [] => rfl
  | x :: xs => by
    simp only [Json.beqFn.beqList, Bool.and_eq_true]
    exact ⟨Json.beqFn_rfl x, Json.beqList_rfl xs⟩

theorem Json.beqFields_rfl :
    ∀ fs : List (String × Json), Json.beqFn.beqFields fs fs = true
  | [] => rfl
  | (k, v) :: fs => by
    simp only [Json.beqFn.beqFields, Bool.and_eq_true]
    exact ⟨⟨by simp, Json.beqFn_rfl v⟩, Json.beqFields_rfl fs⟩
end

instance : DecidableEq Json := fun a b =>
  if h : Json.beqFn a b = true then
    .isTrue (Json.beqFn_eq a b h)
  else
    .isFalse (fun he => h (he ▸ Json.beqFn_rfl a))

/-- JavaScript truthiness on JSON values: `null`, `false`, `0` and the empty
string are falsy; every object and array is truthy. -/
def jsTruthy : Json → Bool
  | .null => false
  | .bool b => b
  | .num n => n != 0
  | .str s => s != ""
  | .arr _ => true
  | .obj _ => true

/-- Field lookup on a JSON object (`undefined` becomes `none`); on any
non-object value every lookup is `none` (primitives have no such fields). -/
def Json.getField : Json → String → Option Json
  | .obj fields, key => lookupField fields key
  | _, _ => none
where
  lookupField : List (String × Json) → String → Option Json
    | [], _ => none
    | (k, v) :: fs, key => if k == key then some v else lookupField fs key

/-- In-place update of one field of a JSON object, preserving field order
(models a JavaScript property assignment to an existing key). -/
def Json.setField : Json → String → Json → Json
  | .obj fields, key, v => .obj (updateField fields key v)
  | j, _, _ => j
where
  updateField : List (String × Json) → String → Json → List (String × Json)
    | [], _, _ => []
    | (k, w) :: fs, key, v =>
      if k == key then (k, v) :: fs else (k, w) :: updateField fs key v

/-- Scan for the three-character sequence backslash backslash `n` (the pattern
denoted by the source literal `"\\\\n"` and the regex `/\\\\n/`). -/
def hasEscNl : List Char → Bool
  | '\\' :: '\\' :: 'n' :: _ => true
  | _ :: rest => hasEscNl rest
  | [] => false

/-- Model of `content.replace("\\\\n", "\n")`: replace the FIRST occurrence of
the three-character sequence backslash backslash `n` with a newline, scanning
left to right, and stop. -/
def replEscFirst : List Char → List Char
  | '\\' :: '\\' :: 'n' :: rest => '\n' :: rest
  | c :: rest => c :: replEscFirst rest
  | [] => []

/-- Model of `s.replace(/\\\\n/g, "\n")`: replace EVERY (non-overlapping,
left-to-right) occurrence of backslash backslash `n` with a newline. -/
def replEscAll : List Char → List Char
  | '\\' :: '\\' :: 'n' :: rest => '\n' :: replEscAll rest
  | c :: rest => c :: replEscAll rest
  | [] => []

/-- String-level wrapper for `replEscFirst`. -/
def replaceEscNlFirst (s : String) : String := ⟨replEscFirst s.data⟩

/-- String-level wrapper for `replEscAll`. -/
def replaceEscNlAll (s : String) : String := ⟨replEscAll s.data⟩

/-- One character of `JSON.stringify` string escaping. -/
def escapeJsonChar (c : Char) : String :=
  if c = '\"' then "\\\""
  else if c = '\\' then "\\\\"
  else if c = '\n' then "\\n"
  else if c = '\t' then "\\t"
  else if c = '\r' then "\\r"
  else String.singleton c

/-- `JSON.stringify` escaping of a string body. -/
def escapeJsonString (s : String) : String :=
  s.data.foldl (fun acc c => acc ++ escapeJsonChar c) ""

mutual
/-- Model of the host `JSON.stringify` on the `Json` fragment used by the
adapter: compact output, no spaces, object fields in insertion order. -/
def stringify : Json → String
  | .null => "null"
  | .bool true => "true"
  | .bool false => "false"
  | .num n => toString n
  | .str s => "\"" ++ escapeJsonString s ++ "\""
  | .arr xs => "[" ++ stringifyList xs ++ "]"
  | .obj fs => "\x7b" ++ stringifyFields fs ++ "\x7d"

/-- Comma-separated serialization of an array body. -/
def stringifyList : List Json → String
  | [] => ""
  | [x] => stringify x
  | x :: y :: xs => stringify x ++ "," ++ stringifyList (y :: xs)

/-- Comma-separated serialization of an object body. -/
def stringifyFields : List (String × Json) → String
  | [] => ""
  | [(k, v)] => "\"" ++ escapeJsonString k ++ "\":" ++ stringify v
  | (k, v) :: f :: fs =>
    "\"" ++ escapeJsonString k ++ "\":" ++ stringify v ++ "," ++ stringifyFields (f :: fs)
end

/-- Model of `replaceNewlinesInObject` (google-genai-adapter.ts): recursively
walk a JSON value, applying the GLOBAL backslash-backslash-`n` to newline
replacement to every string; arrays and objects are rebuilt element-wise,
other values are returned unchanged. -/
def replaceNewlinesInObject : Json → Json
  | .str s => .str (replaceEscNlAll s)
  | .arr xs => .arr (replNlList xs)
  | .obj fs => .obj (replNlFields fs)
  | j => j
where
  replNlList : List Json → List Json
    | [] => []
    | x :: xs => replaceNewlinesInObject x :: replNlList xs
  replNlFields : List (String × Json) → List (String × Json)
    | [] => []
    | (k, v) :: fs => (k, replaceNewlinesInObject v) :: replNlFields fs

/-- Opening brace character (written by code point to keep string literals
brace-free). -/
def lbraceChar : Char := Char.ofNat 123

/-- Closing brace character. -/
def rbraceChar : Char := Char.ofNat 125

/-- JSON insignificant whitespace. -/
def isJsonWs (c : Char) : Bool := c == ' ' || c == '\n' || c == '\t' || c == '\r'

/-- Drop leading JSON whitespace. -/
def skipWs (cs : List Char) : List Char := cs.dropWhile isJsonWs

/-- Decimal digit test. -/
def isDigitChar (c : Char) : Bool := '0' ≤ c && c ≤ '9'

/-- Parse a run of decimal digits into a natural number (left fold). -/
def parseDigits : List Char → Nat → Nat × List Char
  | c :: cs, acc =>
    if isDigitChar c then parseDigits cs (acc * 10 + (c.toNat - '0'.toNat)) else (acc, c :: cs)
  | [], acc => (acc, [])

/-- Parse the body of a JSON string literal after the opening quote, handling
the standard escapes; fails on a lone backslash with an unknown escape or a
missing closing quote. -/
def parseStringBody : List Char → Option (String × List Char)
  | [] => none
  | '\"' :: rest => some ("", rest)
  | '\\' :: e :: rest => do
    let c ←
      if e = '\"' then some '\"'
      else if e = '\\' then some '\\'
      else if e = '/' then some '/'
      else if e = 'n' then some '\n'
      else if e = 't' then some '\t'
      else if e = 'r' then some '\r'
      else none
    let (s, rem) ← parseStringBody rest
    some (⟨c :: s.data⟩, rem)
  | '\\' :: [] => none
  | c :: rest => do
    let (s, rem) ← parseStringBody rest
    some (⟨c :: s.data⟩, rem)

mutual
/-- Fuel-indexed recursive-descent parser modelling the host `JSON.parse` on
the fragment exercised by the adapter (no fractional or exponent numbers:
such inputs fail).  The fuel only bounds nesting depth; `jsonParse` supplies
enough for any input. -/
def parseValue : Nat → List Char → Option (Json × List Char)
  | 0, _ => none
  | fuel + 1, cs₀ =>
    match skipWs cs₀ with
    | 'n' :: 'u' :: 'l' :: 'l' :: rest => some (.null, rest)
    | 't' :: 'r' :: 'u' :: 'e' :: rest => some (.bool true, rest)
    | 'f' :: 'a' :: 'l' :: 's' :: 'e' :: rest => some (.bool false, rest)
    | '\"' :: rest => do
      let (s, rem) ← parseStringBody rest
      some (.str s, rem)
    | '-' :: c :: rest =>
      if isDigitChar c then
        let (n, rem) := parseDigits (c :: rest) 0
        if (rem.head?.map (fun d => d == '.' || d == 'e' || d == 'E')).getD false then none
        else some (.num (-(n : Int)), rem)
      else none
    | c :: rest =>
      if c = lbraceChar then parseObjectBody fuel (skipWs rest)
      else if c = '[' then parseArrayBody fuel (skipWs rest)
      else if isDigitChar c then
        let (n, rem) := parseDigits (c :: rest) 0
        if (rem.head?.map (fun d => d == '.' || d == 'e' || d == 'E')).getD false then none
        else some (.num (n : Int), rem)
      else none
    | [] => none

/-- Parse an array body after the opening bracket (whitespace skipped). -/
def parseArrayBody : Nat → List Char → Option (Json × List Char)
  | 0, _ => none
  | fuel + 1, cs =>
    match cs with
    | ']' :: rest => some (.arr [], rest)
    | _ => do
      let (x, rem) ← parseValue fuel cs
      parseArrayTail fuel [x] (skipWs rem)

/-- Parse array elements after the first, accumulating in reverse. -/
def parseArrayTail : Nat → List Json → List Char → Option (Json × List Char)
  | 0, _, _ => none
  | fuel + 1, acc, cs =>
    match cs with
    | ']' :: rest => some (.arr acc.reverse, rest)
    | ',' :: rest => do
      let (x, rem) ← parseValue fuel rest
      parseArrayTail fuel (x :: acc) (skipWs rem)
    | _ => none

/-- Parse an object body after the opening brace (whitespace skipped). -/
def parseObjectBody : Nat → List Char → Option (Json × List Char)
  | 0, _ => none
  | fuel + 1, cs =>
    match cs with
    | c :: rest =>
      if c = rbraceChar then some (.obj [], rest)
      else if c = '\"' then do
        let (k, rem) ← parseStringBody rest
        match skipWs rem with
        | ':' :: rem₂ => do
          let (v, rem₃) ← parseValue fuel rem₂
          parseObjectTail fuel [(k, v)] (skipWs rem₃)
        | _ => none
      else none
    | [] => none

/-- Parse object fields after the first, accumulating in reverse. -/
def parseObjectTail : Nat → List (String × Json) → List Char → Option (Json × List Char)
  | 0, _, _ => none
  | fuel + 1, acc, cs =>
    match cs with
    | ',' :: rest =>
      match skipWs rest with
      | '\"' :: rem => do
        let (k, rem₂) ← parseStringBody rem
        match skipWs rem₂ with
        | ':' :: rem₃ => do
          let (v, rem₄) ← parseValue fuel rem₃
          parseObjectTail fuel ((k, v) :: acc) (skipWs rem₄)
        | _ => none
      | _ => none
    | c :: rest =>
      if c = rbraceChar then some (.obj acc.reverse, rest)
      else none
    | [] => none
end

/-- Model of the host `JSON.parse`: `none` models a thrown `SyntaxError`. -/
def jsonParse (s : String) : Option Json := do
  let (j, rest) ← parseValue (s.length + 1) s.data
  if skipWs rest = [] then some j else none

/-- Model of `tryParseJson`: a falsy (empty) input yields the empty string,
otherwise the JSON parse of the content, falling back to the raw text when
parsing fails. -/
def tryParseJson (s : String) : Json :=
  if s = "" then .str ""
  else
    match jsonParse s with
    | some j => j
    | none => .str s

/-- The `function_call` field of a chat message.  The source dereferences
`name!` and `arguments!` (non-null assertions), so both are modelled as
present. -/
structure FnCall where
  name : String
  arguments : String
deriving Repr, DecidableEq

/-- A chat-completion style message (`Message` from `@copilotkit/shared`),
restricted to the fields the adapter reads. -/
structure Message where
  role : String
  content : String
  name : Option String
  function_call : Option FnCall
deriving Repr, DecidableEq

/-- The `response` object placed inside a native `functionResponse` part. -/
structure FunctionResponseBody where
  name : String
  content : Json
deriving Repr, DecidableEq

/-- One element of a native `Content`'s `parts` array (named `Part` in the
SDK; renamed here to avoid clashing with the library's `Part`). -/
inductive ContentPart where
  | text (t : String) : ContentPart
  | functionCall (name : String) (args : Json) : ContentPart
  | functionResponse (name : String) (response : FunctionResponseBody) : ContentPart
deriving Repr, DecidableEq

/-- A native `Content` value of the generative-model SDK. -/
structure Content where
  role : String
  parts : List ContentPart
deriving Repr, DecidableEq

/-- Transcoding failures: an unrecognized role (source: `throw new
Error("Invalid message role")`, the spec's `UnsupportedMessageRole`) or a
JSON parse failure of a function call's arguments (the spec's
`MalformedFunctionCallArguments`). -/
inductive TransformError where
  | invalidRole : TransformError
  | malformedArguments (arguments : String) : TransformError
deriving Repr, DecidableEq

/-- Model of `transformMessage`: per-role transcoding of one message into a
native `Content`.  The `name!` assertions of the function branch are
modelled by defaulting an absent name to the empty string; no claim
exercises an absent name. -/
def transformMessage (m : Message) : Except TransformError Content :=
  if m.role = "user" then
    .ok ⟨"user", [.text m.content]⟩
  else if m.role = "assistant" then
    match m.function_call with
    | some fc =>
      match jsonParse fc.arguments with
      | some args => .ok ⟨"model", [.functionCall fc.name args]⟩
      | none => .error (.malformedArguments fc.arguments)
    | none => .ok ⟨"model", [.text (replaceEscNlFirst m.content)]⟩
  else if m.role = "function" then
    .ok ⟨"function",
      [.functionResponse (m.name.getD "") ⟨m.name.getD "", tryParseJson m.content⟩]⟩
  else if m.role = "system" then
    .ok ⟨"user",
      [.text ("THE FOLLOWING MESSAGE IS NOT A USER MESSAGE. IT IS A SYSTEM MESSAGE: "
        ++ m.content)]⟩
  else
    .error .invalidRole

/-- The filter predicate of `transformMessages`: the four recognized roles. -/
def recognizedRole (m : Message) : Bool :=
  m.role == "user" || m.role == "assistant" || m.role == "function" || m.role == "system"

/-- Model of JavaScript `Array.prototype.map` over a throwing callback: the
elements are processed left to right and the first thrown error aborts the
whole map. -/
def mapExcept (f : α → Except ε β) : List α → Except ε (List β)
  | [] => .ok []
  | x :: xs =>
    match f x with
    | .error e => .error e
    | .ok y =>
      match mapExcept f xs with
      | .error e => .error e
      | .ok ys => .ok (y :: ys)

/-- Model of `transformMessages`: keep only the four recognized roles, then
transcode each survivor with `transformMessage`. -/
def transformMessages (msgs : List Message) : Except TransformError (List Content) :=
  mapExcept transformMessage (msgs.filter recognizedRole)

/-- The `function` field of an incoming OpenAI-style tool declaration. -/
structure ToolFunctionDecl where
  name : String
  description : String
  parameters : Json
deriving Repr, DecidableEq

/-- An incoming tool declaration. -/
structure ToolInput where
  function : ToolFunctionDecl
deriving Repr, DecidableEq

/-- One native function declaration produced by `transformTool`. -/
structure FunctionDeclaration where
  name : String
  description : String
  parameters : Json
deriving Repr, DecidableEq

/-- A native `Tool` value. -/
structure NativeTool where
  functionDeclarations : List FunctionDeclaration
deriving Repr, DecidableEq

/-- Model of `String.prototype.toUpperCase` on the ASCII range (tool type
names are ASCII identifiers). -/
def asciiUpper (s : String) : String := ⟨s.data.map Char.toUpper⟩

mutual
/-- Model of the inner `transformProperties` closure of `transformTool`,
applied to an argument `props`: iterate over the keys of `props` (a non-object
argument has no such keys and is unchanged) and rewrite each value. -/
def transformProperties : Json → Json
  | .obj fields => .obj (transformPropFields fields)
  | .arr xs => .arr (transformPropList xs)
  | j => j

/-- Per-key step of `transformProperties`. -/
def transformPropFields : List (String × Json) → List (String × Json)
  | [] => []
  | (k, v) :: fs => (k, transformPropValue v) :: transformPropFields fs

/-- Per-index step of `transformProperties` over an array argument (`for-in`
enumerates array indices). -/
def transformPropList : List Json → List Json
  | [] => []
  | v :: vs => transformPropValue v :: transformPropList vs

/-- For one value `props[key]`: uppercase its truthy `type` field and replace
its truthy `properties` field by the recursive transform.  A truthy
non-string `type` makes the source throw (`toUpperCase` is not a function);
that crash path is not modelled and such values are left unchanged. -/
def transformPropValue : Json → Json
  | .obj vf => .obj (transformInnerFields vf)
  | v => v

/-- Field rewrite inside one value: the `type` and `properties` fields are
the only ones touched (first occurrence in the source's object model, every
occurrence here; JavaScript objects cannot carry duplicate keys). -/
def transformInnerFields : List (String × Json) → List (String × Json)
  | [] => []
  | (k, v) :: fs =>
    (k,
      if k == "type" then
        match v with
        | .str t => if t ≠ "" then .str (asciiUpper t) else v
        | _ => v
      else if k == "properties" then
        if jsTruthy v then transformProperties v else v
      else v) :: transformInnerFields fs
end

/-- Model of `transformTool`: extract `name`, `description` and `parameters`
from the nested `function` field, run `transformProperties` on the
`parameters` object ITSELF (as the source does), and wrap the result as a
single-element `functionDeclarations` array. -/
def transformTool (tool : ToolInput) : NativeTool :=
  { functionDeclarations :=
      [{ name := tool.function.name
         description := tool.function.description
         parameters := transformProperties tool.function.parameters }] }

/-- Model of `transformTools`. -/
def transformTools (tools : List ToolInput) : List NativeTool :=
  tools.map transformTool

/-- Whitespace in the sense of `String.prototype.trim`, restricted to the
common ASCII whitespace characters. -/
def jsWhitespaceChar (c : Char) : Bool :=
  c == ' ' || c == '\t' || c == '\n' || c == '\r' || c == '\x0b' || c == '\x0c'

/-- Model of `String.prototype.trim`: strip leading and trailing
whitespace. -/
def jsTrim (s : String) : String :=
  ⟨(((s.data.dropWhile jsWhitespaceChar).reverse.dropWhile jsWhitespaceChar).reverse)⟩

/-- Failures of the pre-stream part of `getResponse`.  On an empty messages
array the source dereferences `undefined` when transcoding the current
message (a `TypeError`); that crash is modelled as `emptyMessages`. -/
inductive GetResponseError where
  | emptyMessages : GetResponseError
  | transform (e : TransformError) : GetResponseError
deriving Repr, DecidableEq

/-- Everything `getResponse` computes before (and at) the `sendMessageStream`
call, plus the caller-visible state of the messages array afterwards. -/
structure GetResponseModel where
  history0 : List Content
  systemMessage : String
  currentMessage : Message
  chatHistory : List Content
  systemInstruction : Option Content
  tools : List NativeTool
  messagesAfter : List Message
  currentParts : List ContentPart
deriving Repr, DecidableEq

/-- The model-variant test of `getResponse`. -/
def isFirstGenGeminiPro (modelId : String) : Bool :=
  modelId == "gemini-pro" || modelId == "models/gemini-pro"

/-- The synthetic `user` turn `(role:"user", parts:[(text: systemMessage)])`
built from the system message. -/
def systemTurn (systemMessage : String) : Content :=
  ⟨"user", [.text systemMessage]⟩

/-- The system message of `getResponse`: `messages.shift()?.content.trim()
|| ""`, the trimmed content of the first message (empty for an empty
array; the falsy-fallback `|| ""` maps an empty trim to itself). -/
def systemMessageOf (msgs : List Message) : String :=
  match msgs.head? with
  | some m => jsTrim m.content
  | none => ""

/-- Model of the pre-stream part of `getResponse`.  Following the source
order: `history` is transcoded from `messages.slice(0, -1)` (all but the
LAST message) BEFORE `messages.shift()` removes the first element, and the
current message is `messages[messages.length - 1]`.  `chatHistory` and
`systemInstruction` reflect the model-variant branch of `startChat`;
`messagesAfter` is the caller's array after the `shift`. -/
def getResponse (modelId : String) (msgs : List Message) (tools : List ToolInput) :
    Except GetResponseError GetResponseModel :=
  match transformMessages msgs.dropLast with
  | .error e => .error (.transform e)
  | .ok history0 =>
    match msgs.getLast? with
    | none => .error .emptyMessages
    | some current =>
      match transformMessage current with
      | .error e => .error (.transform e)
      | .ok currContent =>
        .ok
          { history0 := history0
            systemMessage := systemMessageOf msgs
            currentMessage := current
            chatHistory :=
              history0 ++
                (if isFirstGenGeminiPro modelId then
                  [systemTurn (systemMessageOf msgs)] else [])
            systemInstruction :=
              if isFirstGenGeminiPro modelId then none
              else some (systemTurn (systemMessageOf msgs))
            tools := transformTools tools
            messagesAfter := msgs.tail
            currentParts := currContent.parts }

/-- One function call reported by the aggregated upstream response
(`(await result.response).functionCalls()`). -/
structure UpstreamCall where
  name : String
  args : Json
deriving Repr, DecidableEq

/-- The `function` member of an outbound tool-call entry. -/
structure ToolCallFn where
  name : String
  arguments : String
deriving Repr, DecidableEq

/-- One entry of an outbound `delta.tool_calls` array. -/
structure ToolCallEntry where
  index : Nat
  id : String
  function : ToolCallFn
deriving Repr, DecidableEq

/-- An outbound chunk's `delta`; an absent `tool_calls` key is `none`. -/
structure Delta where
  role : String
  content : String
  tool_calls : Option (List ToolCallEntry)
deriving Repr, DecidableEq

/-- One element of a chunk's `choices` array. -/
structure ChunkChoice where
  delta : Delta
deriving Repr, DecidableEq

/-- An outbound `ChatCompletionChunk`. -/
structure ChatCompletionChunk where
  choices : List ChunkChoice
deriving Repr, DecidableEq

/-- One write to the outbound response stream: a serialized chunk or the
end-of-stream marker (`writeChatCompletionEnd`). -/
inductive StreamEvent where
  | chunk (c : ChatCompletionChunk) : StreamEvent
  | endMarker : StreamEvent
deriving Repr, DecidableEq

/-- The text chunk written for one upstream fragment. -/
def textChunk (t : String) : ChatCompletionChunk :=
  ⟨[⟨⟨"assistant", t, none⟩⟩]⟩

/-- Model of `calls.map((call, ix) => (...))` starting at index `ix`: each
call becomes an entry with its zero-based index, the stringified index as
`id`, and the newline-normalized JSON serialization of its arguments. -/
def buildToolCalls : Nat → List UpstreamCall → List ToolCallEntry
  | _, [] => []
  | ix, c :: cs =>
    ⟨ix, toString ix, ⟨c.name, stringify (replaceNewlinesInObject c.args)⟩⟩
      :: buildToolCalls (ix + 1) cs

/-- The single tool-call chunk written when the aggregated response reports
at least one function call. -/
def toolCallsChunk (calls : List UpstreamCall) : ChatCompletionChunk :=
  ⟨[⟨⟨"assistant", "", some (buildToolCalls 0 calls)⟩⟩]⟩

/-- Model of the `start(controller)` body of the streaming bridge: one text
chunk per upstream fragment (written unconditionally, in upstream order),
then the tool-call chunk when `calls && calls.length > 0`, then the end
marker; the stream is closed afterwards.  `calls = none` models a
`functionCalls()` result of `undefined`. -/
def streamRun (fragments : List String) (calls : Option (List UpstreamCall)) :
    List StreamEvent :=
  (fragments.map fun t => StreamEvent.chunk (textChunk t)) ++
    (match calls with
     | some cs => if cs.length > 0 then [StreamEvent.chunk (toolCallsChunk cs)] else []
     | none => []) ++
    [StreamEvent.endMarker]

/-! ## Helper lemmas -/

/-- A successful `mapExcept` relates input and output pointwise, in order. -/
theorem mapExcept_ok_forall₂ (f : α → Except ε β) :
    ∀ (l : List α) (ys : List β), mapExcept f l = .ok ys →
      List.Forall₂ (fun x y => f x = .ok y) l ys := by
  intro l
  induction l with
  | nil =>
    intro ys h
    unfold mapExcept at h
    cases h
    exact List.Forall₂.nil
  | cons x xs ih =>
    intro ys h
    unfold mapExcept at h
    cases hf : f x with
    | error e => rw [hf] at h; cases h
    | ok y =>
      rw [hf] at h
      cases hm : mapExcept f xs with
      | error e => rw [hm] at h; cases h
      | ok ys₀ =>
        rw [hm] at h
        cases h
        exact List.Forall₂.cons hf (ih ys₀ hm)

/-- Dissection of a successful `getResponse` into its defining pieces. -/
theorem getResponse_ok_elim (modelId : String) (msgs : List Message)
    (tools : List ToolInput) (r : GetResponseModel)
    (h : getResponse modelId msgs tools = .ok r) :
    ∃ (hist : List Content) (current : Message) (cc : Content),
      transformMessages msgs.dropLast = .ok hist ∧
      msgs.getLast? = some current ∧
      transformMessage current = .ok cc ∧
      r = { history0 := hist
            systemMessage := systemMessageOf msgs
            currentMessage := current
            chatHistory := hist ++
              (if isFirstGenGeminiPro modelId then
                [systemTurn (systemMessageOf msgs)] else [])
            systemInstruction :=
              if isFirstGenGeminiPro modelId then none
              else some (systemTurn (systemMessageOf msgs))
            tools := transformTools tools
            messagesAfter := msgs.tail
            currentParts := cc.parts } := by
  unfold getResponse at h
  cases htm : transformMessages msgs.dropLast with
  | error e => simp only [htm] at h; exact Except.noConfusion h
  | ok hist =>
    simp only [htm] at h
    cases hl : msgs.getLast? with
    | none => simp only [hl] at h; exact Except.noConfusion h
    | some current =>
      simp only [hl] at h
      cases hc : transformMessage current with
      | error e => simp only [hc] at h; exact Except.noConfusion h
      | ok cc =>
        simp only [hc] at h
        cases h
        exact ⟨hist, current, cc, rfl, rfl, hc, rfl⟩

/-! ## C1 -/

/-- C1 is false on the code: for the two-message input `(user "A", user "B")`
the claim demands a chat-session history equal to the transcoding of the
list with both its first and last elements removed (here the empty list),
but the source computes the history from `messages.slice(0, -1)` BEFORE
`messages.shift()` runs, so the transcoded first message `(user "A")` IS the
history. -/
theorem C1_counterexample :
    (getResponse "gemini-1.5-pro-latest"
        [⟨"user", "A", none, none⟩, ⟨"user", "B", none, none⟩] []).map
        GetResponseModel.history0
      = .ok [⟨"user", [.text "A"]⟩]
    ∧ transformMessages
        ((([(⟨"user", "A", none, none⟩ : Message), ⟨"user", "B", none, none⟩]).drop 1).dropLast)
      = .ok []
    ∧ [(⟨"user", [ContentPart.text "A"]⟩ : Content)] ≠ [] :=
  ⟨rfl, rfl, by simp⟩

/-- C1 (amended): for every successful `getResponse` call, the history handed
to the chat session (before any model-variant injection) is the transcoding
of the input list with ONLY its last element removed — the first message is
kept in the transcoded history — while, separately, the last element becomes
the current turn and the first element's trimmed content becomes the system
instruction. -/
theorem C1_amended (modelId : String) (msgs : List Message) (tools : List ToolInput)
    (r : GetResponseModel) (h : getResponse modelId msgs tools = .ok r) :
    transformMessages msgs.dropLast = .ok r.history0
    ∧ msgs.getLast? = some r.currentMessage
    ∧ r.systemMessage = systemMessageOf msgs := by
  obtain ⟨hist, current, cc, htm, hl, hc, hr⟩ :=
    getResponse_ok_elim modelId msgs tools r h
  subst hr
  exact ⟨htm, hl, rfl⟩

/-- C1 witness: the amended statement evaluated on the concrete two-message
input `(user "A", user "B")` with a non-baseline model identifier. -/
theorem C1_amended_witness :
    transformMessages
        ([(⟨"user", "A", none, none⟩ : Message), ⟨"user", "B", none, none⟩]).dropLast
      = .ok [⟨"user", [.text "A"]⟩]
    ∧ ([(⟨"user", "A", none, none⟩ : Message), ⟨"user", "B", none, none⟩]).getLast?
      = some ⟨"user", "B", none, none⟩
    ∧ "A" = systemMessageOf [⟨"user", "A", none, none⟩, ⟨"user", "B", none, none⟩] :=
  C1_amended "gemini-1.5-pro-latest"
    [⟨"user", "A", none, none⟩, ⟨"user", "B", none, none⟩] []
    ⟨[⟨"user", [.text "A"]⟩], "A", ⟨"user", "B", none, none⟩, [⟨"user", [.text "A"]⟩],
      some ⟨"user", [.text "A"]⟩, [], [⟨"user", "B", none, none⟩], [.text "B"]⟩ rfl

/-! ## C2 -/

/-- C2: for every successful `getResponse` call, with a baseline model
identifier ("gemini-pro" or "models/gemini-pro") the chat session gets the
system instruction appended to the history as one extra synthetic user turn
(the last history entry) and no `systemInstruction` field; with any other
identifier the session gets `systemInstruction = (role:"user",
parts:[(text: systemMessage)])` and the transcoded history unmodified. -/
theorem C2_branching (modelId : String) (msgs : List Message) (tools : List ToolInput)
    (r : GetResponseModel) (h : getResponse modelId msgs tools = .ok r) :
    (isFirstGenGeminiPro modelId = true →
      r.chatHistory = r.history0 ++ [systemTurn r.systemMessage]
      ∧ r.systemInstruction = none)
    ∧ (isFirstGenGeminiPro modelId = false →
      r.chatHistory = r.history0
      ∧ r.systemInstruction = some (systemTurn r.systemMessage)) := by
  obtain ⟨hist, current, cc, htm, hl, hc, hr⟩ :=
    getResponse_ok_elim modelId msgs tools r h
  subst hr
  constructor
  · intro hg; simp [hg]
  · intro hg; simp [hg]

/-- C2 witness: the branching evaluated at the baseline identifier
"gemini-pro" on `(system "Be concise", user "Hi")`: the last history entry is
the synthetic user turn carrying "Be concise" and no system instruction is
set. -/
theorem C2_branching_witness :
    (isFirstGenGeminiPro "gemini-pro" = true →
      ([⟨"user",
          [.text ("THE FOLLOWING MESSAGE IS NOT A USER MESSAGE. IT IS A SYSTEM MESSAGE: "
            ++ "Be concise")]⟩, systemTurn "Be concise"] : List Content)
        = [⟨"user",
            [.text ("THE FOLLOWING MESSAGE IS NOT A USER MESSAGE. IT IS A SYSTEM MESSAGE: "
              ++ "Be concise")]⟩] ++ [systemTurn "Be concise"]
      ∧ (none : Option Content) = none)
    ∧ (isFirstGenGeminiPro "gemini-pro" = false →
      ([⟨"user",
          [.text ("THE FOLLOWING MESSAGE IS NOT A USER MESSAGE. IT IS A SYSTEM MESSAGE: "
            ++ "Be concise")]⟩, systemTurn "Be concise"] : List Content)
        = [⟨"user",
            [.text ("THE FOLLOWING MESSAGE IS NOT A USER MESSAGE. IT IS A SYSTEM MESSAGE: "
              ++ "Be concise")]⟩]
      ∧ (none : Option Content) = some (systemTurn "Be concise")) :=
  C2_branching "gemini-pro"
    [⟨"system", "Be concise", none, none⟩, ⟨"user", "Hi", none, none⟩] []
    ⟨[⟨"user",
        [.text ("THE FOLLOWING MESSAGE IS NOT A USER MESSAGE. IT IS A SYSTEM MESSAGE: "
          ++ "Be concise")]⟩],
      "Be concise", ⟨"user", "Hi", none, none⟩,
      [⟨"user",
        [.text ("THE FOLLOWING MESSAGE IS NOT A USER MESSAGE. IT IS A SYSTEM MESSAGE: "
          ++ "Be concise")]⟩, systemTurn "Be concise"],
      none, [], [⟨"user", "Hi", none, none⟩], [.text "Hi"]⟩ rfl

/-! ## C9 -/

/-- C9 is false on the code: `getResponse` mutates the caller's messages
array; `messages.shift()` removes its first element, so after the call on
`(user "A", user "B")` the array is `(user "B")`, not the original two
elements. -/
theorem C9_counterexample :
    (getResponse "gemini-pro"
        [⟨"user", "A", none, none⟩, ⟨"user", "B", none, none⟩] []).map
        GetResponseModel.messagesAfter
      = .ok [⟨"user", "B", none, none⟩]
    ∧ [(⟨"user", "B", none, none⟩ : Message)]
      ≠ [⟨"user", "A", none, none⟩, ⟨"user", "B", none, none⟩] :=
  ⟨rfl, by simp⟩

/-- C9 (amended): the caller-supplied messages array is NOT consumed
read-only: by the time the stream is returned, the `shift()` call has
removed its first element, leaving exactly the tail of the original array
(one element shorter, remaining elements in order). -/
theorem C9_amended (modelId : String) (msgs : List Message) (tools : List ToolInput)
    (r : GetResponseModel) (h : getResponse modelId msgs tools = .ok r) :
    r.messagesAfter = msgs.tail ∧ msgs.length = r.messagesAfter.length + 1 := by
  obtain ⟨hist, current, cc, htm, hl, hc, hr⟩ :=
    getResponse_ok_elim modelId msgs tools r h
  subst hr
  refine ⟨rfl, ?_⟩
  cases msgs with
  | nil => simp at hl
  | cons m ms => simp

/-- C9 witness: the amended statement on the concrete two-message input. -/
theorem C9_amended_witness :
    [(⟨"user", "B", none, none⟩ : Message)]
      = ([(⟨"user", "A", none, none⟩ : Message), ⟨"user", "B", none, none⟩]).tail
    ∧ ([(⟨"user", "A", none, none⟩ : Message), ⟨"user", "B", none, none⟩]).length
      = [(⟨"user", "B", none, none⟩ : Message)].length + 1 :=
  C9_amended "gemini-pro" [⟨"user", "A", none, none⟩, ⟨"user", "B", none, none⟩] []
    ⟨[⟨"user", [.text "A"]⟩], "A", ⟨"user", "B", none, none⟩,
      [⟨"user", [.text "A"]⟩, systemTurn "A"], none, [],
      [⟨"user", "B", none, none⟩], [.text "B"]⟩ rfl

/-! ## C10 -/

/-- C10: a single-message list raises no error and the one message is used
twice — its trimmed content is the system instruction and the message
itself, transcoded, is the current turn — with an empty prior transcoded
history. -/
theorem C10_single_message (modelId : String) (m : Message) (tools : List ToolInput)
    (c : Content) (hc : transformMessage m = .ok c) :
    getResponse modelId [m] tools
      = .ok { history0 := []
              systemMessage := jsTrim m.content
              currentMessage := m
              chatHistory :=
                if isFirstGenGeminiPro modelId then [systemTurn (jsTrim m.content)] else []
              systemInstruction :=
                if isFirstGenGeminiPro modelId then none
                else some (systemTurn (jsTrim m.content))
              tools := transformTools tools
              messagesAfter := []
              currentParts := c.parts } := by
  simp only [getResponse,
    show transformMessages (List.dropLast [m]) = Except.ok [] from rfl,
    show ([m] : List Message).getLast? = some m from rfl, hc, systemMessageOf]
  simp

/-- C10 witness: the single user message "hi" under the baseline model. -/
theorem C10_single_message_witness :
    getResponse "gemini-pro" [⟨"user", "hi", none, none⟩] []
      = .ok ⟨[], "hi", ⟨"user", "hi", none, none⟩, [systemTurn "hi"], none, [], [],
          [.text "hi"]⟩ :=
  C10_single_message "gemini-pro" ⟨"user", "hi", none, none⟩ [] ⟨"user", [.text "hi"]⟩ rfl

/-- Stepping `replEscFirst` past a character that cannot start the
pattern. -/
theorem replEscFirst_cons_ne (c : Char) (rest : List Char) (hc : c ≠ '\\') :
    replEscFirst (c :: rest) = c :: replEscFirst rest := by
  rw [replEscFirst.eq_def]
  split <;> simp_all

/-- A string without the backslash-backslash-`n` pattern is unchanged by the
first-occurrence replacement. -/
theorem replEscFirst_no_occ : ∀ l : List Char, hasEscNl l = false → replEscFirst l = l := by
  intro l
  induction l using replEscFirst.induct with
  | case1 rest => intro h; simp [hasEscNl] at h
  | case2 c rest hne ih =>
    intro h
    rw [replEscFirst.eq_def]
    split <;> simp_all
    exact ih (by rw [hasEscNl.eq_def] at h; revert h; split <;> simp_all)
  | case3 => intro _; rfl

/-- The first-occurrence replacement rewrites exactly the occurrence that
follows a backslash-free prefix and leaves the suffix alone. -/
theorem replEscFirst_first_only (pre : List Char) :
    ∀ post : List Char, '\\' ∉ pre →
      replEscFirst (pre ++ '\\' :: '\\' :: 'n' :: post) = pre ++ '\n' :: post := by
  induction pre with
  | nil => intro post _; rfl
  | cons c cs ih =>
    intro post hpre
    have hc : c ≠ '\\' := by intro h; exact hpre (by simp [h])
    rw [List.cons_append, replEscFirst_cons_ne c _ hc,
      ih post (fun h => hpre (List.mem_cons_of_mem _ h))]
    rfl

/-! ## C5 -/

/-- C5 is false on the code: for the assistant content consisting of the
two-character sequence backslash `n` followed by `x`, the claim demands the
transcoded text to carry a real newline, but the source pattern
`"\\\\n"` denotes the THREE-character sequence backslash backslash `n`, so
the content passes through unchanged. -/
theorem C5_counterexample :
    transformMessage ⟨"assistant", "\\nx", none, none⟩ = .ok ⟨"model", [.text "\\nx"]⟩
    ∧ "\\nx" ≠ "\nx" :=
  ⟨rfl, by decide⟩

/-- C5 (amended): for every assistant message without a function call,
`transformMessage` yields `(role: model, parts: [(text: t)])` where `t` is
the content with the FIRST occurrence of the three-character sequence
backslash backslash `n` replaced by a real newline; later occurrences (and
contents without the pattern) are untouched. -/
theorem C5_assistant_text :
    (∀ (content : String) (nm : Option String),
      transformMessage ⟨"assistant", content, nm, none⟩
        = .ok ⟨"model", [.text (replaceEscNlFirst content)]⟩)
    ∧ (∀ pre post : List Char, '\\' ∉ pre →
      replEscFirst (pre ++ '\\' :: '\\' :: 'n' :: post) = pre ++ '\n' :: post)
    ∧ (∀ s : String, hasEscNl s.data = false → replaceEscNlFirst s = s) := by
  refine ⟨fun content nm => rfl, replEscFirst_first_only, fun s h => ?_⟩
  rw [replaceEscNlFirst, replEscFirst_no_occ s.data h]

/-- C5 witness: the first of two pattern occurrences in
`a backslash backslash n b backslash backslash n` is replaced, the second
survives. -/
theorem C5_assistant_text_witness :
    replEscFirst (['a'] ++ '\\' :: '\\' :: 'n' :: ['b', '\\', '\\', 'n'])
      = ['a'] ++ '\n' :: ['b', '\\', '\\', 'n'] :=
  C5_assistant_text.2.1 ['a'] ['b', '\\', '\\', 'n'] (by decide)

/-! ## C7 -/

/-- C7: a successful `transformMessages` run returns, in order, exactly the
transcodings of the messages whose role is one of user, assistant, function
or system; all other messages are dropped and none of the recognized ones
is. -/
theorem C7_filter_order (msgs : List Message) (cs : List Content)
    (h : transformMessages msgs = .ok cs) :
    List.Forall₂ (fun m c => transformMessage m = .ok c)
      (msgs.filter fun m =>
        m.role == "user" || m.role == "assistant"
          || m.role == "function" || m.role == "system")
      cs :=
  mapExcept_ok_forall₂ transformMessage (msgs.filter recognizedRole) cs h

/-- C7 witness: a concrete history with an unrecognized "tool" role in the
middle; the output pairs up with the filtered input. -/
theorem C7_filter_order_witness :
    List.Forall₂ (fun m c => transformMessage m = .ok c)
      (([⟨"user", "hi", none, none⟩, ⟨"tool", "x", none, none⟩,
          ⟨"system", "s", none, none⟩] : List Message).filter fun m =>
        m.role == "user" || m.role == "assistant"
          || m.role == "function" || m.role == "system")
      [⟨"user", [.text "hi"]⟩,
        ⟨"user",
          [.text ("THE FOLLOWING MESSAGE IS NOT A USER MESSAGE. IT IS A SYSTEM MESSAGE: "
            ++ "s")]⟩] :=
  C7_filter_order
    [⟨"user", "hi", none, none⟩, ⟨"tool", "x", none, none⟩, ⟨"system", "s", none, none⟩]
    [⟨"user", [.text "hi"]⟩,
      ⟨"user",
        [.text ("THE FOLLOWING MESSAGE IS NOT A USER MESSAGE. IT IS A SYSTEM MESSAGE: "
          ++ "s")]⟩] rfl

/-! ## C8 -/

/-- C8 is false on the code: a message with the unrecognized role "tool" in
the history does NOT abort transcoding — `transformMessages` silently
filters it out and succeeds with an empty result. -/
theorem C8_counterexample :
    transformMessages [(⟨"tool", "x", none, none⟩ : Message)] = .ok []
    ∧ "tool" ≠ "user" ∧ "tool" ≠ "assistant" ∧ "tool" ≠ "function" ∧ "tool" ≠ "system" :=
  ⟨rfl, by decide, by decide, by decide, by decide⟩

/-- C8 (amended): `transformMessage` itself fails with the invalid-role
error on every unrecognized role, but inside `transformMessages` such
messages are filtered away before transcoding, so the request aborts only
when the CURRENT (last) message carries the unrecognized role. -/
theorem C8_unrecognized_role :
    (∀ m : Message, recognizedRole m = false →
      transformMessage m = .error .invalidRole)
    ∧ (∀ (ms₁ ms₂ : List Message) (m : Message), recognizedRole m = false →
      transformMessages (ms₁ ++ m :: ms₂) = transformMessages (ms₁ ++ ms₂))
    ∧ (∀ (modelId : String) (msgs : List Message) (tools : List ToolInput)
        (m : Message) (hist : List Content),
      msgs.getLast? = some m → recognizedRole m = false →
      transformMessages msgs.dropLast = .ok hist →
      getResponse modelId msgs tools = .error (.transform .invalidRole)) := by
  have h1 : ∀ m : Message, recognizedRole m = false →
      transformMessage m = .error .invalidRole := by
    intro m hm
    unfold recognizedRole at hm
    simp only [Bool.or_eq_false_iff, beq_eq_false_iff_ne, ne_eq] at hm
    obtain ⟨⟨⟨hu, ha⟩, hf⟩, hs⟩ := hm
    unfold transformMessage
    rw [if_neg hu, if_neg ha, if_neg hf, if_neg hs]
  refine ⟨h1, ?_, ?_⟩
  · intro ms₁ ms₂ m hm
    unfold transformMessages
    rw [List.filter_append, List.filter_append, List.filter_cons_of_neg]
    simp [hm]
  · intro modelId msgs tools m hist hlast hm htm
    unfold getResponse
    simp only [htm, hlast, h1 m hm]

/-- C8 witness: the pieces of the amended statement evaluated on the role
"tool": the single-message transcoder errors out, a history containing it
is transcoded as if it were absent, and a request whose LAST message has
that role aborts with the invalid-role error. -/
theorem C8_unrecognized_role_witness :
    transformMessage ⟨"tool", "x", none, none⟩ = .error .invalidRole
    ∧ transformMessages
        ([⟨"user", "a", none, none⟩] ++ (⟨"tool", "x", none, none⟩ : Message)
          :: [⟨"user", "b", none, none⟩])
      = transformMessages ([⟨"user", "a", none, none⟩] ++ [⟨"user", "b", none, none⟩])
    ∧ getResponse "gemini-pro"
        [⟨"user", "a", none, none⟩, ⟨"tool", "x", none, none⟩] []
      = .error (.transform .invalidRole) :=
  ⟨C8_unrecognized_role.1 ⟨"tool", "x", none, none⟩ rfl,
    C8_unrecognized_role.2.1 [⟨"user", "a", none, none⟩] [⟨"user", "b", none, none⟩]
      ⟨"tool", "x", none, none⟩ rfl,
    C8_unrecognized_role.2.2 "gemini-pro"
      [⟨"user", "a", none, none⟩, ⟨"tool", "x", none, none⟩] []
      ⟨"tool", "x", none, none⟩ [⟨"user", [.text "a"]⟩] rfl rfl rfl⟩

/-- Length of the built tool-call list. -/
theorem buildToolCalls_length :
    ∀ (cs : List UpstreamCall) (start : Nat), (buildToolCalls start cs).length = cs.length := by
  intro cs
  induction cs with
  | nil => intro start; rfl
  | cons c cs ih => intro start; simp [buildToolCalls, ih]

/-- Pointwise description of the built tool-call list. -/
theorem buildToolCalls_getElem? :
    ∀ (cs : List UpstreamCall) (start ix : Nat),
      (buildToolCalls start cs)[ix]? = cs[ix]?.map fun c =>
        ⟨start + ix, toString (start + ix),
          ⟨c.name, stringify (replaceNewlinesInObject c.args)⟩⟩ := by
  intro cs
  induction cs with
  | nil => intro start ix; simp [buildToolCalls]
  | cons c cs ih =>
    intro start ix
    cases ix with
    | zero => simp [buildToolCalls]
    | succ n =>
      simp only [buildToolCalls, List.getElem?_cons_succ, ih (start + 1) n]
      have hn : start + 1 + n = start + (n + 1) := by omega
      rw [hn]

/-! ## C3 -/

/-- C3: when the aggregated response reports at least one function call the
bridge emits exactly one extra chunk after all text chunks, whose
`tool_calls` entry at each position `ix` carries `index = ix`, `id` the
string form of `ix`, the call's name, and the arguments serialized to JSON
after the recursive newline normalization; with no function calls no such
chunk is emitted; in every case the end-of-stream marker is the final
write. -/
theorem C3_tool_call_chunk (fragments : List String) (calls : Option (List UpstreamCall)) :
    (∀ cs : List UpstreamCall, calls = some cs → cs ≠ [] →
      streamRun fragments calls
        = (fragments.map fun t => StreamEvent.chunk (textChunk t))
          ++ [StreamEvent.chunk (toolCallsChunk cs), StreamEvent.endMarker]
      ∧ (buildToolCalls 0 cs).length = cs.length
      ∧ ∀ (ix : Nat) (c : UpstreamCall), cs[ix]? = some c →
        (buildToolCalls 0 cs)[ix]?
          = some ⟨ix, toString ix, ⟨c.name, stringify (replaceNewlinesInObject c.args)⟩⟩)
    ∧ ((calls = none ∨ calls = some []) →
      streamRun fragments calls
        = (fragments.map fun t => StreamEvent.chunk (textChunk t))
          ++ [StreamEvent.endMarker])
    ∧ (streamRun fragments calls).getLast? = some StreamEvent.endMarker := by
  refine ⟨?_, ?_, ?_⟩
  · rintro cs rfl hne
    refine ⟨?_, buildToolCalls_length cs 0, ?_⟩
    · have hpos : cs.length > 0 := List.length_pos.mpr hne
      simp [streamRun, hpos]
    · intro ix c hc
      rw [buildToolCalls_getElem? cs 0 ix, hc]
      simp
  · rintro (rfl | rfl) <;> simp [streamRun]
  · exact List.getLast?_concat _

/-- C3 witness: the specification's end-to-end example — one call
`lookup(q:"x")` after an empty text stream yields exactly the tool-call
chunk then the end marker, with entry `(index 0, id "0", name "lookup",
arguments the serialized object)`. -/
theorem C3_tool_call_chunk_witness :
    streamRun [] (some [⟨"lookup", Json.obj [("q", Json.str "x")]⟩])
      = [StreamEvent.chunk (toolCallsChunk [⟨"lookup", Json.obj [("q", Json.str "x")]⟩]),
          StreamEvent.endMarker]
    ∧ (buildToolCalls 0 [⟨"lookup", Json.obj [("q", Json.str "x")]⟩])[0]?
      = some ⟨0, "0", ⟨"lookup", "\x7b\"q\":\"x\"\x7d"⟩⟩ :=
  ⟨((C3_tool_call_chunk [] (some [⟨"lookup", Json.obj [("q", Json.str "x")]⟩])).1
      [⟨"lookup", Json.obj [("q", Json.str "x")]⟩] rfl (by simp)).1,
    ((C3_tool_call_chunk [] (some [⟨"lookup", Json.obj [("q", Json.str "x")]⟩])).1
      [⟨"lookup", Json.obj [("q", Json.str "x")]⟩] rfl (by simp)).2.2 0
      ⟨"lookup", Json.obj [("q", Json.str "x")]⟩ rfl⟩

/-! ## C6 -/

/-- C6 is false on the code: the bridge writes a text chunk for EVERY
upstream fragment — there is no emptiness test — so an empty fragment also
produces a chunk, where the claim demands that none be emitted. -/
theorem C6_counterexample :
    streamRun [""] none
      = [StreamEvent.chunk ⟨[⟨⟨"assistant", "", none⟩⟩]⟩, StreamEvent.endMarker]
    ∧ [StreamEvent.chunk (⟨[⟨⟨"assistant", "", none⟩⟩]⟩ : ChatCompletionChunk),
        StreamEvent.endMarker] ≠ [StreamEvent.endMarker] :=
  ⟨rfl, by simp⟩

/-- C6 (amended): the bridge emits exactly one `CompletionChunk` with
`delta.role = assistant` and `delta.content` equal to the fragment for EVERY
upstream fragment — empty or not — in upstream order (the chunk for the
`ix`-th fragment is the `ix`-th stream write). -/
theorem C6_text_chunks (fragments : List String) (calls : Option (List UpstreamCall)) :
    (streamRun fragments calls).take fragments.length
      = (fragments.map fun t => StreamEvent.chunk ⟨[⟨⟨"assistant", t, none⟩⟩]⟩)
    ∧ ∀ (ix : Nat) (t : String), fragments[ix]? = some t →
      (streamRun fragments calls)[ix]?
        = some (StreamEvent.chunk ⟨[⟨⟨"assistant", t, none⟩⟩]⟩) := by
  constructor
  · unfold streamRun
    rw [List.append_assoc,
      show fragments.length = (fragments.map fun t => StreamEvent.chunk (textChunk t)).length
        from (List.length_map _ _).symm]
    exact List.take_left _ _
  · intro ix t ht
    have hlt : ix < fragments.length := by
      by_contra hge
      push_neg at hge
      rw [List.getElem?_eq_none hge] at ht
      cases ht
    have hlt₂ : ix < (fragments.map fun t => StreamEvent.chunk (textChunk t)).length := by
      simpa using hlt
    unfold streamRun
    rw [List.append_assoc, List.getElem?_append_left hlt₂, List.getElem?_map, ht]
    rfl

/-- C6 witness: the third (empty) fragment of `("Hel", "lo", "")` still
yields a chunk, at stream position 2. -/
theorem C6_text_chunks_witness :
    (streamRun ["Hel", "lo", ""] none)[2]?
      = some (StreamEvent.chunk ⟨[⟨⟨"assistant", "", none⟩⟩]⟩) :=
  (C6_text_chunks ["Hel", "lo", ""] none).2 2 "" rfl

/-- Values whose key is neither `type` nor `properties` are untouched by the
inner field rewrite. -/
theorem transformInnerFields_id :
    ∀ P : List (String × Json),
      (∀ kv ∈ P, kv.1 ≠ "type" ∧ kv.1 ≠ "properties") → transformInnerFields P = P := by
  intro P
  induction P with
  | nil => intro _; rfl
  | cons kv fs ih =>
    intro h
    obtain ⟨hk1, hk2⟩ := h kv (by simp)
    cases kv with
    | mk k v =>
      simp only [transformInnerFields]
      rw [if_neg (by simpa using hk1), if_neg (by simpa using hk2),
        ih (fun kv hkv => h kv (by simp [hkv]))]

/-! ## C4 -/

/-- C4 is false on the code: `transformProperties` is called on the
`parameters` object ITSELF rather than on `parameters.properties`, so for a
canonical JSON-Schema tool — here `lookup` with one string parameter `q` —
no `type` inside `properties` is touched: the result still carries the
lower-case `"string"` where the claim demands `"STRING"`. -/
theorem C4_counterexample :
    transformTool ⟨⟨"lookup", "find things",
        Json.obj [("type", Json.str "object"),
          ("properties", Json.obj [("q", Json.obj [("type", Json.str "string")])])]⟩⟩
      = ⟨[⟨"lookup", "find things",
          Json.obj [("type", Json.str "object"),
            ("properties", Json.obj [("q", Json.obj [("type", Json.str "string")])])]⟩]⟩
    ∧ Json.str "string" ≠ Json.str "STRING" :=
  ⟨rfl, by decide⟩

/-- C4 (amended): `transformTool` wraps the transformed parameters as a
single-element `functionDeclarations` array with the extracted name and
description, but the type-uppercasing walk runs over the `parameters` object
itself: with canonical JSON-Schema parameters `(type, properties)` whose
property names avoid the literal keys "type" and "properties", the
parameters — including every `type` string below `properties` — are
returned entirely unchanged. -/
theorem C4_wrap_no_uppercase (tool : ToolInput) :
    transformTool tool
      = ⟨[⟨tool.function.name, tool.function.description,
          transformProperties tool.function.parameters⟩]⟩
    ∧ ∀ (t : String) (P : List (String × Json)),
      (∀ kv ∈ P, kv.1 ≠ "type" ∧ kv.1 ≠ "properties") →
      transformProperties (Json.obj [("type", Json.str t), ("properties", Json.obj P)])
        = Json.obj [("type", Json.str t), ("properties", Json.obj P)] := by
  refine ⟨rfl, fun t P h => ?_⟩
  simp only [transformProperties, transformPropFields, transformPropValue,
    transformInnerFields_id P h]

/-- C4 witness: the amended statement on the concrete `lookup` tool and its
canonical parameters. -/
theorem C4_wrap_no_uppercase_witness :
    transformTool ⟨⟨"lookup", "find things", Json.null⟩⟩
      = ⟨[⟨"lookup", "find things", transformProperties Json.null⟩]⟩
    ∧ transformProperties (Json.obj [("type", Json.str "object"),
        ("properties", Json.obj [("q", Json.obj [("type", Json.str "string")])])])
      = Json.obj [("type", Json.str "object"),
        ("properties", Json.obj [("q", Json.obj [("type", Json.str "string")])])] :=
  ⟨(C4_wrap_no_uppercase ⟨⟨"lookup", "find things", Json.null⟩⟩).1,
    (C4_wrap_no_uppercase ⟨⟨"lookup", "find things", Json.null⟩⟩).2 "object"
      [("q", Json.obj [("type", Json.str "string")])] (by decide)⟩
